import Mathlib

/-!
Shallow embedding of the loguru logging engine (src/loguru.hpp) and proofs
about it.  Pure computations (severity gate, basename extraction, indentation
rendering, stack-trace prettification, preamble level text) are translated
directly; the stateful operations (sink registry, file registration, scope
RAII, the fatal path) are modelled as explicit state passing over the sink
registry plus event lists recording the calls the code makes (stream writes,
sink callback invocations, close-hook invocations, fatal-handler invocation,
abort).  Opaque C pointers (callback function pointers, user_data, FILE*)
are modelled as Nat tokens.  Filesystem outcomes (mkdir, fopen) are oracle
Booleans, since the code only branches on their success.
-/

namespace Loguru

/-- `Verbosity` is a signed integer scale (src/loguru.hpp:121). -/
abbrev Verbosity := Int

/-- NamedVerbosity constants (src/loguru.hpp:129-138). -/
def FATAL : Verbosity := -3

def ERROR : Verbosity := -2

def WARNING : Verbosity := -1

def INFO : Verbosity := 0

def MAX : Verbosity := 9

/-- The `Message` record handed to every sink (src/loguru.hpp:140-151).
The C field `prefix` is renamed `pre` (`prefix` is a Lean keyword). -/
structure Message where
  verbosity : Verbosity
  filename : String
  line : Nat
  preamble : String
  indentation : String
  pre : String
  message : String
deriving DecidableEq

/-- A registry entry (struct `Callback`, src/loguru.hpp:630-637).
`callback`, `user_data` and `close` are opaque pointer tokens. -/
structure Callback where
  id : String
  callback : Nat
  user_data : Nat
  verbosity : Verbosity
  close : Option Nat
deriving DecidableEq

/-- The gate of the `VLOG_F` / `LOG_F` macros (src/loguru.hpp:263-265):
`(verbosity > loguru::g_verbosity) ? (void)0 : loguru::log(...)`.
The call is forwarded to `loguru::log` iff the severity does not exceed the
global threshold; `loguru::log` itself (src/loguru.hpp:1157-1162) never
filters. -/
def vlog_accepts (g verbosity : Verbosity) : Bool :=
  if verbosity > g then false else true

/-- One observable action of the dispatch engine `log_message`
(src/loguru.hpp:1121-1136): the immediate stream write (stderr for
severities at or below WARNING, stdout otherwise), and one callback
invocation per eligible sink. -/
inductive DispatchEvent where
  | streamWrite (toStderr : Bool) (m : Message)
  | sinkCall (callback user_data : Nat) (m : Message)
deriving DecidableEq

/-- The sink-traversal loop of `log_message` (src/loguru.hpp:1131-1135):
for each registered callback in order, if `verbosity <= p.verbosity`,
invoke `p.callback(p.user_data, message)`. -/
def sinkTraversal (m : Message) : List Callback → List DispatchEvent
  | [] => []
  | p :: rest =>
    if m.verbosity ≤ p.verbosity then
      DispatchEvent.sinkCall p.callback p.user_data m :: sinkTraversal m rest
    else
      sinkTraversal m rest

/-- `log_message` (src/loguru.hpp:1121-1136): write the message to the
alert (stderr) or normal (stdout) stream depending on the severity sign,
then traverse the sink registry. -/
def log_message (m : Message) (cs : List Callback) : List DispatchEvent :=
  DispatchEvent.streamWrite (decide (m.verbosity ≤ WARNING)) m :: sinkTraversal m cs

/-- The full `VLOG_F` macro behaviour: dispatch through `log_message` iff the
severity passes the gate, otherwise do nothing at all. -/
def VLOG_F (g : Verbosity) (m : Message) (cs : List Callback) : List DispatchEvent :=
  if vlog_accepts g m.verbosity then log_message m cs else []

/-- `add_callback` (src/loguru.hpp:926-931): `s_callbacks.push_back(...)`. -/
def add_callback (cs : List Callback) (id : String) (callback : Nat) (user_data : Nat)
    (verbosity : Verbosity) (on_close : Option Nat) : List Callback :=
  cs ++ [⟨id, callback, user_data, verbosity, on_close⟩]

/-- `remove_callback` (src/loguru.hpp:933-943): find the first entry whose id
matches; if found, invoke its close hook (when non-null) on its `user_data`
and erase it; otherwise issue an ERROR-level log call reporting the failure.
Returns (new registry, close-hook invocations as (hook, user_data) pairs,
whether the not-found ERROR report was issued).  The report denotes the
`LOG_F(ERROR, ...)` call site; its delivery goes through the verbosity gate
modelled by `vlog_accepts`. -/
def remove_callback (id : String) : List Callback → List Callback × List (Nat × Nat) × Bool
  | [] => ([], [], true)
  | c :: rest =>
    if c.id = id then
      (rest, (match c.close with | some f => [(f, c.user_data)] | none => []), false)
    else
      let r := remove_callback id rest
      (c :: r.1, r.2.1, r.2.2)

/-- Observable actions of `log_and_abort` (src/loguru.hpp:1199-1219). -/
inductive AbortEvent where
  | dispatched (verbosity : Verbosity) (pre body : String)
  | fatalHandlerCall
  | abortCall
deriving DecidableEq

/-- `log_and_abort` (src/loguru.hpp:1199-1219): capture a stack trace `st`;
if non-empty, log it at ERROR severity as `"Stack trace:\n" ++ st` through
`LOG_F(ERROR, ...)` (line 1207) — which expands to the `VLOG_F` macro, so
the trace dispatch additionally passes the `verbosity > g_verbosity` gate;
then dispatch the FATAL message with the expression text as prefix via
`log_to_everywhere_v` (which never filters); then call the fatal handler if
set; then `abort()`.  `g` is the global threshold `g_verbosity`; the trace
text is an oracle parameter (platform stack unwinding); `handlerSet` models
`s_fatal_handler != nullptr`. -/
def log_and_abort (g : Verbosity) (st expr detail : String) (handlerSet : Bool) :
    List AbortEvent :=
  (if st = "" then []
   else if vlog_accepts g ERROR then
     [AbortEvent.dispatched ERROR "" ("Stack trace:\n" ++ st)]
   else [])
  ++ [AbortEvent.dispatched FATAL expr detail]
  ++ (if handlerSet then [AbortEvent.fatalHandlerCall] else [])
  ++ [AbortEvent.abortCall]

/-- Recognises the FATAL dispatch event. -/
def isFatalDispatch : AbortEvent → Bool
  | AbortEvent.dispatched v _ _ => v == FATAL
  | _ => false

/-- Recognises an ERROR-severity dispatch event. -/
def isErrorDispatch : AbortEvent → Bool
  | AbortEvent.dispatched v _ _ => v == ERROR
  | _ => false

/-- Recognises the fatal-handler invocation event. -/
def isHandlerCall : AbortEvent → Bool
  | AbortEvent.fatalHandlerCall => true
  | _ => false

/-! Stack-trace prettification (src/loguru.hpp:976-1006).  The text
processing works on `List Char`; `String` values are unpacked at the API
boundary. -/

/-- The characters matched by the ECMAScript regex class `\s`. -/
def isWsChar (c : Char) : Bool :=
  c == ' ' || c == '\t' || c == '\n' || c == '\r' || c == '\x0b' || c == '\x0c'

/-- `std::string::find`: index of the first occurrence of `pat` in `s`. -/
def strFind (s pat : List Char) : Option Nat :=
  match s with
  | [] => if pat = [] then some 0 else none
  | c :: rest =>
    if pat.isPrefixOf (c :: rest) then some 0
    else (strFind rest pat).map (fun i => i + 1)

/-- One `output.replace(it, p.first.size(), p.second)` step at the first
occurrence, or `none` when `find` fails. -/
def replaceFirst (s pat repl : List Char) : Option (List Char) :=
  (strFind s pat).map (fun i => s.take i ++ repl ++ s.drop (i + pat.length))

/-- The `while ((it = output.find(p.first)) != npos)` loop of
`prettify_stacktrace` (src/loguru.hpp:993-996), fuelled.  Every
`REPLACE_LIST` replacement is strictly shorter than its pattern, so the
loop runs at most `|s|` times and fuel `|s| + 1` reproduces it exactly. -/
def replaceAllLoop : Nat → List Char → List Char → List Char → List Char
  | 0, s, _, _ => s
  | fuel + 1, s, pat, repl =>
    match replaceFirst s pat repl with
    | none => s
    | some t => replaceAllLoop fuel t pat repl

/-- Replace every occurrence of `pat` by `repl`, re-scanning from the start
after each replacement, as the C++ loop does. -/
def replaceAllOf (s pat repl : List Char) : List Char :=
  replaceAllLoop (s.length + 1) s pat repl

/-- Demangled name of `std::string` on the reference platform
(GNU libstdc++, cxx11 ABI): the value of `type_name<std::string>()`
(src/loguru.hpp:979). -/
def typeNameStdString : String :=
  "std::__cxx11::basic_string<char, std::char_traits<char>, std::allocator<char> >"

/-- Demangled name of `std::wstring` (src/loguru.hpp:980). -/
def typeNameStdWstring : String :=
  "std::__cxx11::basic_string<wchar_t, std::char_traits<wchar_t>, std::allocator<wchar_t> >"

/-- Demangled name of `std::u16string` (src/loguru.hpp:981). -/
def typeNameStdU16string : String :=
  "std::__cxx11::basic_string<char16_t, std::char_traits<char16_t>, std::allocator<char16_t> >"

/-- Demangled name of `std::u32string` (src/loguru.hpp:982). -/
def typeNameStdU32string : String :=
  "std::__cxx11::basic_string<char32_t, std::char_traits<char32_t>, std::allocator<char32_t> >"

/-- `REPLACE_LIST` (src/loguru.hpp:978-986). -/
def REPLACE_LIST : List (String × String) :=
  [ (typeNameStdString, "std::string"),
    (typeNameStdWstring, "std::wstring"),
    (typeNameStdU16string, "std::u16string"),
    (typeNameStdU32string, "std::u32string"),
    ("std::__1::", "std::"),
    ("__thiscall ", ""),
    ("__cdecl ", "") ]

/-- First pass of `prettify_stacktrace` (src/loguru.hpp:992-997): for each
pair of `REPLACE_LIST`, in order, replace occurrences to a fixed point. -/
def applyReplaceList (s : List Char) : List Char :=
  REPLACE_LIST.foldl (fun acc p => replaceAllOf acc p.1.data p.2.data) s

/-- The literal part of the allocator regex. -/
def allocHead : List Char := "std::allocator<".data

/-- Match of the regex `,\s*std::allocator<[^<>]+>` (src/loguru.hpp:999)
anchored at the head of `s`; returns the suffix after the match.  The
backtracking regex is deterministic here: `\s` never matches `s`, so the
whitespace run is maximal, and `[^<>]+` can only stop right before an angle
bracket, so the inner run is maximal and the next character must be `>`. -/
def allocMatchEnd (s : List Char) : Option (List Char) :=
  match s with
  | ',' :: rest =>
    let r1 := rest.dropWhile isWsChar
    if allocHead.isPrefixOf r1 then
      let r2 := r1.drop allocHead.length
      let inner := r2.takeWhile (fun c => !(c == '<' || c == '>'))
      if inner.length > 0 then
        match r2.drop inner.length with
        | '>' :: r3 => some r3
        | _ => none
      else none
    else none
  | _ => none

/-- `std::regex_replace` with the allocator regex and an empty replacement:
scan left to right, drop each non-overlapping match, resume after it.
Every step consumes at least one character, so fuel `|s|` is exact. -/
def scanAllocLoop : Nat → List Char → List Char
  | 0, s => s
  | _ + 1, [] => []
  | fuel + 1, c :: rest =>
    match allocMatchEnd (c :: rest) with
    | some t => scanAllocLoop fuel t
    | none => c :: scanAllocLoop fuel rest

/-- Second pass of `prettify_stacktrace` (src/loguru.hpp:999-1000). -/
def removeAllocators (s : List Char) : List Char :=
  scanAllocLoop s.length s

/-- Match of the regex `<\s*([^<> ]+)\s*>` (src/loguru.hpp:1002) anchored at
the head of `s`; returns the capture and the suffix after the match. -/
def tmplMatchEnd (s : List Char) : Option (List Char × List Char) :=
  match s with
  | '<' :: rest =>
    let r1 := rest.dropWhile isWsChar
    let tok := r1.takeWhile (fun c => !(c == '<' || c == '>' || c == ' '))
    if tok.length > 0 then
      match (r1.drop tok.length).dropWhile isWsChar with
      | '>' :: r3 => some (tok, r3)
      | _ => none
    else none
  | _ => none

/-- `std::regex_replace` with the template-spaces regex, replacing each
match by `<$1>`. -/
def scanTmplLoop : Nat → List Char → List Char
  | 0, s => s
  | _ + 1, [] => []
  | fuel + 1, c :: rest =>
    match tmplMatchEnd (c :: rest) with
    | some (tok, t) => '<' :: (tok ++ '>' :: scanTmplLoop fuel t)
    | none => c :: scanTmplLoop fuel rest

/-- Third pass of `prettify_stacktrace` (src/loguru.hpp:1002-1003). -/
def normalizeTemplateSpaces (s : List Char) : List Char :=
  scanTmplLoop s.length s

/-- `prettify_stacktrace` (src/loguru.hpp:988-1006): the `REPLACE_LIST`
fixed-point substitutions, then allocator-argument removal, then whitespace
normalization inside angle brackets. -/
def prettify_stacktrace (input : String) : String :=
  ⟨normalizeTemplateSpaces (removeAllocators (applyReplaceList input.data))⟩

/-! File sinks (src/loguru.hpp:866-918). -/

/-- `FileMode` (src/loguru.hpp:176). -/
inductive FileMode where
  | Truncate
  | Append
deriving DecidableEq

/-- The fopen mode string chosen by `add_file` (src/loguru.hpp:903). -/
def mode_str (mode : FileMode) : String :=
  if mode = FileMode.Truncate then "w" else "a"

/-- Opaque token for the `file_log` handler (src/loguru.hpp:664-670). -/
def file_log : Nat := 1

/-- Opaque token for the `file_close` handler (src/loguru.hpp:672-676). -/
def file_close : Nat := 2

/-- Observable actions of `add_file`: the two ERROR reports (issued through
`LOG_F(ERROR, ...)` call sites), the header lines written to the opened
file, and the final INFO log call. -/
inductive AddFileEvent where
  | errorDirs
  | openCall (modeStr : String)
  | errorOpen
  | headerWrite
  | infoLog
deriving DecidableEq

/-- `add_file` (src/loguru.hpp:897-918).  `mkpathOk` is the result of
`mkpath(path)` and `fopenOk` whether `fopen` succeeded (filesystem oracles);
`file` is the opened `FILE*` token.  On mkpath failure an ERROR is reported
and execution continues; only a failed `fopen` reports, returns false and
skips registration.  On success the file sink is registered (with
`file_close` as close hook) before the header lines are written, and the
function returns true. -/
def add_file (mkpathOk fopenOk : Bool) (path : String) (file : Nat) (mode : FileMode)
    (verbosity : Verbosity) (cs : List Callback) : Bool × List Callback × List AddFileEvent :=
  let dirEv := if mkpathOk then [] else [AddFileEvent.errorDirs]
  if fopenOk then
    (true,
     add_callback cs path file_log file verbosity (some file_close),
     dirEv ++ [AddFileEvent.openCall (mode_str mode), AddFileEvent.headerWrite,
       AddFileEvent.infoLog])
  else
    (false, cs, dirEv ++ [AddFileEvent.openCall (mode_str mode), AddFileEvent.errorOpen])

/-! Scope logging (src/loguru.hpp:1175-1197). -/

/-- `LogScopeRAII` (src/loguru.hpp:205-222): `file` is `none` when the
scope was disabled at entry (`_file = nullptr` marker). -/
structure LogScopeRAII where
  verbosity : Verbosity
  file : Option String
  line : Nat
  start_time_ns : Int
  name : String
deriving DecidableEq

/-- Messages emitted by scope entry and exit.  The exit message keeps its
`printf` arguments structured: the format string, the precision passed for
`%.*f`, the elapsed nanoseconds whose seconds value is rendered, and the
label; this avoids modelling binary floating-point rendering. -/
inductive ScopeEvent where
  | enterMsg (verbosity : Verbosity) (file : String) (line : Nat) (pre : String) (body : String)
  | exitMsg (verbosity : Verbosity) (file : String) (line : Nat) (format : String)
      (precision : Nat) (elapsed_ns : Int) (name : String)
deriving DecidableEq

/-- `SCOPE_TIME_PRECISION` (src/loguru.hpp:641). -/
def SCOPE_TIME_PRECISION : Nat := 3

/-- The exit-message format string `"} %.*f s: %s"` (src/loguru.hpp:1195). -/
def scopeExitFormat : String := "\x7d %.*f s: %s"

/-- The `LogScopeRAII` constructor (src/loguru.hpp:1175-1188): if
`verbosity <= g_verbosity`, log an entry message with prefix `"{ "` and then
increment the shared indentation counter; otherwise record the null-file
marker and do nothing.  `now` is `now_ns()`, `ind` the current value of
`s_indentation`.  Returns (handle, new indentation, emitted messages). -/
def LogScopeRAII_init (g verbosity : Verbosity) (file : String) (line : Nat)
    (name : String) (now : Int) (ind : Int) : LogScopeRAII × Int × List ScopeEvent :=
  if verbosity ≤ g then
    (⟨verbosity, some file, line, now, name⟩, ind + 1,
     [ScopeEvent.enterMsg verbosity file line "\x7b " name])
  else
    (⟨verbosity, none, line, now, name⟩, ind, [])

/-- The `LogScopeRAII` destructor (src/loguru.hpp:1190-1197): if the file
marker is set, decrement the indentation counter and emit the exit message
`"} %.*f s: %s"` with `SCOPE_TIME_PRECISION`, the elapsed time and the
recorded label; otherwise do nothing. -/
def LogScopeRAII_dtor (h : LogScopeRAII) (now : Int) (ind : Int) : Int × List ScopeEvent :=
  match h.file with
  | none => (ind, [])
  | some f =>
    (ind - 1,
     [ScopeEvent.exitMsg h.verbosity f h.line scopeExitFormat SCOPE_TIME_PRECISION
        (now - h.start_time_ns) h.name])

/-! Preamble (src/loguru.hpp:1069-1119) and basename helper
(src/loguru.hpp:763-771). -/

/-- Path separators recognised by `filename` (src/loguru.hpp:766). -/
def isPathSep (c : Char) : Bool := c == '/' || c == '\\'

/-- The scanning loop of `filename` (src/loguru.hpp:765-769): `path` is the
current candidate result, the second argument the remaining characters the
pointer still scans; at each separator the candidate is reset to the
remainder after it. -/
def filenameLoop : List Char → List Char → List Char
  | path, [] => path
  | path, c :: rest =>
    if isPathSep c then filenameLoop rest rest else filenameLoop path rest

/-- `filename` (src/loguru.hpp:763-771): the suffix of `path` after its
last path separator. -/
def filename (path : List Char) : List Char :=
  filenameLoop path path

/-- Models `snprintf(level_buff, sizeof(level_buff) - 1, "% 4d", v)`
(src/loguru.hpp:1110): the space flag prints a space in the sign position of
non-negative values, the value is right-justified to width 4, and at most 4
characters fit in the buffer. -/
def fmtSpacePad4 (v : Int) : String :=
  let core := if v < 0 then toString v else " " ++ toString v
  let padded :=
    if core.length < 4 then String.mk (List.replicate (4 - core.length) ' ') ++ core
    else core
  padded.take 4

/-- The level text `level_buff` of `print_preamble`
(src/loguru.hpp:1102-1111).  In the final `snprintf` the buffer is printed
with `%4s`, which only pads it to the fixed column width. -/
def print_preamble_level (verbosity : Verbosity) : String :=
  if verbosity ≤ FATAL then "FATL"
  else if verbosity = ERROR then "ERR"
  else if verbosity = WARNING then "WARN"
  else fmtSpacePad4 verbosity

/-- The file shown in the preamble (src/loguru.hpp:1098-1100): reduced to
its basename when `s_strip_file_path` is set. -/
def print_preamble_file (strip : Bool) (file : List Char) : List Char :=
  if strip then filename file else file

/-! Indentation (src/loguru.hpp:715-725). -/

/-- The 400-character static buffer of `indentation`
(src/loguru.hpp:717-722): one hundred copies of the 4-character marker. -/
def indentationBuff : String :=
  ".   .   .   .   .   .   .   .   .   .   " ++ ".   .   .   .   .   .   .   .   .   .   " ++
  ".   .   .   .   .   .   .   .   .   .   " ++ ".   .   .   .   .   .   .   .   .   .   " ++
  ".   .   .   .   .   .   .   .   .   .   " ++ ".   .   .   .   .   .   .   .   .   .   " ++
  ".   .   .   .   .   .   .   .   .   .   " ++ ".   .   .   .   .   .   .   .   .   .   " ++
  ".   .   .   .   .   .   .   .   .   .   " ++ ".   .   .   .   .   .   .   .   .   .   "

/-- `indentation` (src/loguru.hpp:715-725): clamp the depth to 100 and
return the suffix `buff + 4 * (100 - depth)` of the static buffer. -/
def indentation (depth : Nat) : List Char :=
  indentationBuff.data.drop (4 * (100 - min depth 100))

/-! Helper lemmas. -/

/-- The macro gate accepts exactly the severities at or below the
threshold. -/
theorem vlog_accepts_iff_le (g s : Verbosity) : vlog_accepts g s = true ↔ s ≤ g := by
  by_cases h : s > g
  · rw [vlog_accepts, if_pos h]
    simp only [Bool.false_eq_true, false_iff]
    exact not_le.mpr h
  · rw [vlog_accepts, if_neg h]
    simp only [true_iff]
    exact not_lt.mp h

/-- The sink-traversal loop keeps exactly the sinks whose cutoff admits the
message, in order, mapping each to one invocation. -/
theorem sinkTraversal_eq_filter_map (m : Message) (cs : List Callback) :
    sinkTraversal m cs
      = (cs.filter fun p => decide (m.verbosity ≤ p.verbosity)).map
          (fun p => DispatchEvent.sinkCall p.callback p.user_data m) := by
  induction cs with
  | nil => rfl
  | cons c rest ih =>
    by_cases h : m.verbosity ≤ c.verbosity <;>
      simp [sinkTraversal, h, ih, List.filter_cons]

/-- `remove_callback` erases the first matching entry, fires exactly its
close hook, and reports iff nothing matched. -/
theorem remove_callback_spec (id : String) (cs : List Callback) :
    (remove_callback id cs).1 = cs.eraseP (fun c => c.id == id)
    ∧ (remove_callback id cs).2.1
        = ((cs.find? (fun c => c.id == id)).elim []
            (fun c => c.close.elim [] (fun f => [(f, c.user_data)])))
    ∧ (remove_callback id cs).2.2 = (cs.find? (fun c => c.id == id)).isNone := by
  induction cs with
  | nil => simp [remove_callback]
  | cons c rest ih =>
    obtain ⟨ih1, ih2, ih3⟩ := ih
    by_cases h : c.id = id
    · cases hc : c.close <;>
        simp [remove_callback, h, List.eraseP_cons, hc]
    · simp [remove_callback, h, List.eraseP_cons, ih1, ih2, ih3]

/-- `takeWhile` over an append stops in the left part when some element of
it fails the predicate. -/
theorem takeWhile_append_of_not_all {α : Type} {p : α → Bool} {xs : List α} (ys : List α)
    (h : xs.all p = false) : (xs ++ ys).takeWhile p = xs.takeWhile p := by
  induction xs with
  | nil => simp at h
  | cons a l ih =>
    cases hpa : p a with
    | false => simp [List.takeWhile_cons, hpa]
    | true =>
      have hl : l.all p = false := by simpa [List.all_cons, hpa] using h
      simp [List.takeWhile_cons, hpa, ih hl]

/-- Invariant of the `filename` scanning loop: the result is the text after
the last separator of the remaining input, or the current candidate when no
separator remains. -/
theorem filenameLoop_eq (l : List Char) : ∀ p : List Char,
    filenameLoop p l
      = if l.any isPathSep then (l.reverse.takeWhile (fun c => !isPathSep c)).reverse
        else p := by
  induction l with
  | nil => intro p; simp [filenameLoop]
  | cons c rest ih =>
    intro p
    by_cases hc : isPathSep c = true
    · rw [filenameLoop, if_pos hc, ih rest]
      have hany : (c :: rest).any isPathSep = true := by simp [hc]
      rw [if_pos hany]
      by_cases hr : rest.any isPathSep = true
      · rw [if_pos hr]
        have hall : rest.reverse.all (fun c => !isPathSep c) = false := by
          simp only [List.all_reverse]
          rcases List.any_eq_true.mp hr with ⟨x, hx, hpx⟩
          exact List.all_eq_false.mpr ⟨x, hx, by simp [hpx]⟩
        rw [List.reverse_cons, takeWhile_append_of_not_all _ hall]
      · rw [if_neg hr]
        have hall : ∀ a ∈ rest.reverse, (!isPathSep a) = true := by
          intro a ha
          rw [List.mem_reverse] at ha
          have : ¬ isPathSep a = true := fun hsep =>
            hr (List.any_eq_true.mpr ⟨a, ha, hsep⟩)
          simp [Bool.eq_false_iff.mpr this]
        rw [List.reverse_cons, List.takeWhile_append_of_pos hall]
        simp [List.takeWhile_cons, hc]
    · rw [filenameLoop, if_neg hc, ih p]
      have hany : (c :: rest).any isPathSep = rest.any isPathSep := by
        simp [List.any_cons, Bool.eq_false_iff.mpr hc]
      rw [hany]
      by_cases hr : rest.any isPathSep = true
      · rw [if_pos hr, if_pos hr]
        have hall : rest.reverse.all (fun c => !isPathSep c) = false := by
          simp only [List.all_reverse]
          rcases List.any_eq_true.mp hr with ⟨x, hx, hpx⟩
          exact List.all_eq_false.mpr ⟨x, hx, by simp [hpx]⟩
        rw [List.reverse_cons, takeWhile_append_of_not_all _ hall]
      · rw [if_neg hr, if_neg hr]

/-- `filename` computes the basename: the reversed longest separator-free
suffix of the input. -/
theorem filename_eq_basename (s : List Char) :
    filename s = (s.reverse.takeWhile (fun c => !isPathSep c)).reverse := by
  rw [filename, filenameLoop_eq s s]
  by_cases h : s.any isPathSep = true
  · rw [if_pos h]
  · rw [if_neg h]
    have hall : ∀ a ∈ s.reverse, (!isPathSep a) = true := by
      intro a ha
      rw [List.mem_reverse] at ha
      have : ¬ isPathSep a = true := fun hsep => h (List.any_eq_true.mpr ⟨a, ha, hsep⟩)
      simp [Bool.eq_false_iff.mpr this]
    rw [List.takeWhile_eq_self_iff.mpr hall, List.reverse_reverse]

/-- No path separator survives in the result of `filename`. -/
theorem filename_no_sep (s : List Char) : ∀ c ∈ filename s, isPathSep c = false := by
  intro c hc
  rw [filename_eq_basename, List.mem_reverse] at hc
  have := List.mem_takeWhile_imp hc
  simpa using this

/-- Concatenating replicated markers splits over addition. -/
theorem flatten_replicate_add (a b : Nat) :
    (List.replicate (a + b) (".   ".data)).flatten
      = (List.replicate a (".   ".data)).flatten ++ (List.replicate b (".   ".data)).flatten := by
  induction a with
  | zero => simp
  | succ a ih =>
    rw [show a + 1 + b = (a + b) + 1 from by omega, List.replicate_succ,
      List.replicate_succ, List.flatten_cons, List.flatten_cons, ih, List.append_assoc]

/-- Length of `a` repetitions of the 4-character marker. -/
theorem length_flatten_replicate (a : Nat) :
    ((List.replicate a (".   ".data)).flatten).length = 4 * a := by
  induction a with
  | zero => simp
  | succ a ih =>
    rw [List.replicate_succ, List.flatten_cons, List.length_append, ih,
      show (".   ".data).length = 4 from rfl]
    omega

/-- Dropping `4 * a` characters from `a + b` markers leaves `b` markers. -/
theorem drop_flatten_replicate (a b : Nat) :
    ((List.replicate (a + b) (".   ".data)).flatten).drop (4 * a)
      = (List.replicate b (".   ".data)).flatten := by
  rw [flatten_replicate_add, List.drop_left' (length_flatten_replicate a)]

set_option maxRecDepth 8192 in
/-- `indentation` renders `min depth 100` copies of the marker. -/
theorem indentation_eq_replicate (n : Nat) :
    indentation n = (List.replicate (min n 100) (".   ".data)).flatten := by
  have hbuff : indentationBuff.data = (List.replicate 100 (".   ".data)).flatten := by decide
  have hm : min n 100 ≤ 100 := min_le_right n 100
  rw [indentation, hbuff]
  have key := drop_flatten_replicate (100 - min n 100) (min n 100)
  rw [show 100 - min n 100 + min n 100 = 100 from by omega] at key
  exact key

/-! Claim theorems. -/

/-- Claim C1.  The `VLOG_F` gate accepts a severity `s >= 0` iff
`s <= g_verbosity`, and a rejected call does nothing at all; but the claimed
always-on behaviour of negative severities is false in the code: at
threshold `-2` a WARNING (`-1`) call is suppressed, although the code's own
comment on `NamedVerbosity` says negative severities cannot be skipped. -/
theorem C1_verbosity_gate :
    (∀ s g : Verbosity, 0 ≤ s → (vlog_accepts g s = true ↔ s ≤ g))
    ∧ vlog_accepts (-2) (-1) = false
    ∧ (∀ (g : Verbosity) (m : Message) (cs : List Callback),
        vlog_accepts g m.verbosity = false → VLOG_F g m cs = []) := by
  refine ⟨?_, by decide, ?_⟩
  · intro s g _
    by_cases h : s > g
    · rw [vlog_accepts, if_pos h]
      simp only [Bool.false_eq_true, false_iff]
      exact not_le.mpr h
    · rw [vlog_accepts, if_neg h]
      simp only [true_iff]
      exact not_lt.mp h
  · intro g m cs h
    simp [VLOG_F, h]

/-- Witness for C1 at a concrete input. -/
theorem C1_verbosity_gate_witness : vlog_accepts 0 0 = true :=
  (C1_verbosity_gate.1 0 0 (by decide)).2 (by decide)

/-- Claim C2 counterexample.  With a non-empty captured trace but the
global threshold at `-3`, the trace's `LOG_F(ERROR, ...)` call is
suppressed by the macro gate (`-2 > -3`), so `log_and_abort` dispatches
nothing at ERROR severity — contradicting the claim that a non-empty trace
is dispatched at ERROR severity on every call. -/
theorem C2_trace_dropped_below_error :
    (log_and_abort (-3) "tr" "e" "d" true).filter isErrorDispatch = []
    ∧ "tr" ≠ "" := by
  decide

/-- Claim C2, amended.  `log_and_abort` dispatches the captured stack trace
at ERROR severity exactly when it is non-empty and ERROR passes the global
threshold (`-2 <= g_verbosity`, true at the default threshold 0);
unconditionally dispatches exactly one FATAL message whose prefix is the
expression text and whose body is the formatted detail text; invokes the
fatal handler exactly once iff it is set; and ends in `abort()`; the trace
dispatch, when present, precedes the FATAL dispatch. -/
theorem C2_fatal_path_sequence (g : Verbosity) (st expr detail : String) (hs : Bool) :
    ((log_and_abort g st expr detail hs).filter isFatalDispatch
        = [AbortEvent.dispatched FATAL expr detail])
    ∧ ((log_and_abort g st expr detail hs).filter isErrorDispatch
        = if st ≠ "" ∧ ERROR ≤ g then
            [AbortEvent.dispatched ERROR "" ("Stack trace:\n" ++ st)]
          else [])
    ∧ ((log_and_abort g st expr detail hs).filter isHandlerCall
        = if hs then [AbortEvent.fatalHandlerCall] else [])
    ∧ (log_and_abort g st expr detail hs).getLast? = some AbortEvent.abortCall
    ∧ (st ≠ "" → ERROR ≤ g →
        (log_and_abort g st expr detail hs).take 2
          = [AbortEvent.dispatched ERROR "" ("Stack trace:\n" ++ st),
             AbortEvent.dispatched FATAL expr detail]) := by
  have hfe : ∀ p b, isFatalDispatch (AbortEvent.dispatched ERROR p b) = false := fun _ _ => rfl
  have hff : ∀ p b, isFatalDispatch (AbortEvent.dispatched FATAL p b) = true := fun _ _ => rfl
  have hee : ∀ p b, isErrorDispatch (AbortEvent.dispatched ERROR p b) = true := fun _ _ => rfl
  have hef : ∀ p b, isErrorDispatch (AbortEvent.dispatched FATAL p b) = false := fun _ _ => rfl
  have hhd : ∀ v p b, isHandlerCall (AbortEvent.dispatched v p b) = false := fun _ _ _ => rfl
  have hhh : isHandlerCall AbortEvent.fatalHandlerCall = true := rfl
  have hha : isHandlerCall AbortEvent.abortCall = false := rfl
  have hfa : isFatalDispatch AbortEvent.abortCall = false := rfl
  have hfh : isFatalDispatch AbortEvent.fatalHandlerCall = false := rfl
  have hea : isErrorDispatch AbortEvent.abortCall = false := rfl
  have heh : isErrorDispatch AbortEvent.fatalHandlerCall = false := rfl
  by_cases hg : ERROR ≤ g
  · have hb : vlog_accepts g ERROR = true := (vlog_accepts_iff_le g ERROR).mpr hg
    by_cases h : st = "" <;> cases hs <;>
      simp [log_and_abort, h, hg, hb, hfe, hff, hee, hef, hhd, hhh, hha, hfa, hfh, hea,
        heh, List.filter_append, List.filter_cons, List.getLast?_concat]
  · have hb : vlog_accepts g ERROR = false := by
      cases hv : vlog_accepts g ERROR
      · rfl
      · exact absurd ((vlog_accepts_iff_le g ERROR).mp hv) hg
    by_cases h : st = "" <;> cases hs <;>
      simp [log_and_abort, h, hg, hb, hfe, hff, hee, hef, hhd, hhh, hha, hfa, hfh, hea,
        heh, List.filter_append, List.filter_cons, List.getLast?_concat]

/-- Witness for the amended C2 at a concrete input. -/
theorem C2_fatal_path_sequence_witness :
    (log_and_abort 0 "tr" "e" "d" true).take 2
      = [AbortEvent.dispatched ERROR "" ("Stack trace:\n" ++ "tr"),
         AbortEvent.dispatched FATAL "e" "d"] :=
  (C2_fatal_path_sequence 0 "tr" "e" "d" true).2.2.2.2 (by decide) (by decide)

/-- Claim C3.  The dispatch traversal invokes exactly the sinks whose cutoff
admits the message, once each, in registration order, with the message and
the sink's own context; and registration appends at the end. -/
theorem C3_sink_fanout (m : Message) (cs : List Callback) (id : String) (cb ud : Nat)
    (v : Verbosity) (oc : Option Nat) :
    sinkTraversal m cs
      = (cs.filter fun p => decide (m.verbosity ≤ p.verbosity)).map
          (fun p => DispatchEvent.sinkCall p.callback p.user_data m)
    ∧ add_callback cs id cb ud v oc = cs ++ [⟨id, cb, ud, v, oc⟩] :=
  ⟨sinkTraversal_eq_filter_map m cs, rfl⟩

/-- Claim C4.  `remove_callback` removes exactly the first entry with a
matching id, invoking its close hook (when non-null) on its own context;
when nothing matches it issues the ERROR-level not-found report, the
registry is unchanged and no close hook fires. -/
theorem C4_remove_first_match (id : String) (cs : List Callback) :
    (remove_callback id cs).1 = cs.eraseP (fun c => c.id == id)
    ∧ (remove_callback id cs).2.1
        = ((cs.find? (fun c => c.id == id)).elim []
            (fun c => c.close.elim [] (fun f => [(f, c.user_data)])))
    ∧ (remove_callback id cs).2.2 = (cs.find? (fun c => c.id == id)).isNone
    ∧ (cs.find? (fun c => c.id == id) = none →
        (remove_callback id cs).1 = cs ∧ (remove_callback id cs).2.1 = []) := by
  obtain ⟨h1, h2, h3⟩ := remove_callback_spec id cs
  refine ⟨h1, h2, h3, fun hnone => ⟨?_, ?_⟩⟩
  · rw [h1]
    exact List.eraseP_of_forall_not (List.find?_eq_none.mp hnone)
  · rw [h2, hnone]
    rfl

/-- Witness for C4 at a concrete input. -/
theorem C4_remove_first_match_witness :
    (remove_callback "missing" ([] : List Callback)).1 = []
    ∧ (remove_callback "missing" ([] : List Callback)).2.1 = [] :=
  (C4_remove_first_match "missing" []).2.2.2 (by rfl)

/-- Claim C5 counterexample.  Prettification is not idempotent: removing a
nested allocator argument uncovers a fresh allocator match, so a second
application strips more text. -/
theorem C5_prettify_not_idempotent :
    prettify_stacktrace (prettify_stacktrace ", std::allocator<a, std::allocator<b>>")
      ≠ prettify_stacktrace ", std::allocator<a, std::allocator<b>>" := by
  decide

/-- Claim C5, amended.  Prettification is idempotent on those inputs whose
prettified form is left unchanged by each of the three cleanup passes
(replacement-list substitution, allocator removal, template-space
normalization); in general a second application can change the result. -/
theorem C5_prettify_idempotent_on_stable (x : String)
    (h1 : applyReplaceList (prettify_stacktrace x).data = (prettify_stacktrace x).data)
    (h2 : removeAllocators (prettify_stacktrace x).data = (prettify_stacktrace x).data)
    (h3 : normalizeTemplateSpaces (prettify_stacktrace x).data = (prettify_stacktrace x).data) :
    prettify_stacktrace (prettify_stacktrace x) = prettify_stacktrace x := by
  show (⟨normalizeTemplateSpaces (removeAllocators
      (applyReplaceList (prettify_stacktrace x).data))⟩ : String) = prettify_stacktrace x
  rw [h1, h2, h3]

/-- Witness for the amended C5 at a concrete input. -/
theorem C5_prettify_idempotent_on_stable_witness :
    prettify_stacktrace (prettify_stacktrace "hello") = prettify_stacktrace "hello" :=
  C5_prettify_idempotent_on_stable "hello" (by decide) (by decide) (by decide)

/-- Claim C6 counterexample.  When directory creation fails but the file
still opens, `add_file` reports the directory error yet returns true and
registers the sink — contradicting the claim that a directory-creation
failure makes it return false with no sink added. -/
theorem C6_mkpath_failure_still_registers :
    (add_file false true "a/b/c.log" 7 FileMode.Append 9 []).1 = true
    ∧ (add_file false true "a/b/c.log" 7 FileMode.Append 9 []).2.1 ≠ []
    ∧ AddFileEvent.errorDirs ∈ (add_file false true "a/b/c.log" 7 FileMode.Append 9 []).2.2 := by
  refine ⟨rfl, ?_, by decide⟩
  intro h
  simp [add_file, add_callback] at h

/-- Claim C6, amended.  `add_file` returns true and registers the file sink
(with `file_close` as close hook) exactly when the open succeeds, writing
the header lines then; a failed open is reported and adds no sink; a failed
directory creation is reported but only influences the outcome through the
open; the open mode is `"w"` for Truncate and `"a"` for Append. -/
theorem C6_add_file_behavior (mk fop : Bool) (path : String) (file : Nat) (mode : FileMode)
    (v : Verbosity) (cs : List Callback) :
    (add_file mk fop path file mode v cs).1 = fop
    ∧ (add_file mk fop path file mode v cs).2.1
        = (if fop then cs ++ [⟨path, file_log, file, v, some file_close⟩] else cs)
    ∧ (AddFileEvent.errorDirs ∈ (add_file mk fop path file mode v cs).2.2 ↔ mk = false)
    ∧ (AddFileEvent.errorOpen ∈ (add_file mk fop path file mode v cs).2.2 ↔ fop = false)
    ∧ (AddFileEvent.headerWrite ∈ (add_file mk fop path file mode v cs).2.2 ↔ fop = true)
    ∧ AddFileEvent.openCall (mode_str mode) ∈ (add_file mk fop path file mode v cs).2.2
    ∧ mode_str FileMode.Truncate = "w" ∧ mode_str FileMode.Append = "a" := by
  cases mk <;> cases fop <;>
    simp [add_file, add_callback, mode_str]

/-- Witness for the amended C6 at a concrete input. -/
theorem C6_add_file_behavior_witness :
    (add_file true true "p" 1 FileMode.Truncate 9 []).1 = true :=
  (C6_add_file_behavior true true "p" 1 FileMode.Truncate 9 []).1

/-- Claim C7.  A disabled scope records the null marker, logs nothing and
leaves the indentation depth alone, and its destructor is a no-op; an
enabled scope logs an entry message with prefix `"{ "` and the label, then
increments the depth, and its destructor decrements the depth back and
emits the `"} %.*f s: %s"` exit message with precision 3, the elapsed time
and the original label — so every pair restores the depth. -/
theorem C7_scope_pairing (g v : Verbosity) (file : String) (line : Nat) (name : String)
    (t0 t1 ind : Int) :
    (¬ v ≤ g →
      (LogScopeRAII_init g v file line name t0 ind).1.file = none
      ∧ (LogScopeRAII_init g v file line name t0 ind).2.1 = ind
      ∧ (LogScopeRAII_init g v file line name t0 ind).2.2 = []
      ∧ LogScopeRAII_dtor (LogScopeRAII_init g v file line name t0 ind).1 t1 ind = (ind, []))
    ∧ (v ≤ g →
      (LogScopeRAII_init g v file line name t0 ind).2.2
          = [ScopeEvent.enterMsg v file line "\x7b " name]
      ∧ (LogScopeRAII_init g v file line name t0 ind).2.1 = ind + 1
      ∧ (LogScopeRAII_dtor (LogScopeRAII_init g v file line name t0 ind).1 t1 (ind + 1)).1
          = ind
      ∧ (LogScopeRAII_dtor (LogScopeRAII_init g v file line name t0 ind).1 t1 (ind + 1)).2
          = [ScopeEvent.exitMsg v file line scopeExitFormat SCOPE_TIME_PRECISION (t1 - t0)
              name]
      ∧ SCOPE_TIME_PRECISION = 3
      ∧ scopeExitFormat.take 2 = "\x7d ") := by
  constructor
  · intro h
    simp [LogScopeRAII_init, LogScopeRAII_dtor, h]
  · intro h
    refine ⟨?_, ?_, ?_, ?_, rfl, by decide⟩ <;>
      simp [LogScopeRAII_init, LogScopeRAII_dtor, h]

/-- Witness for C7 at a concrete input. -/
theorem C7_scope_pairing_witness :
    (LogScopeRAII_dtor (LogScopeRAII_init 0 0 "a.cpp" 3 "s" 10 5).1 25 (5 + 1)).1 = 5 :=
  ((C7_scope_pairing 0 0 "a.cpp" 3 "s" 10 25 5).2 (by decide)).2.2.1

/-- Claim C8.  The preamble level text is `FATL`, `ERR`, `WARN` for the
three named negative levels and a width-4 right-justified signed decimal
for INFO and the positive verbose levels; with the strip flag set the file
column is exactly the basename, which contains no path separator. -/
theorem C8_preamble_level_file (v : Verbosity) (f : List Char) (h0 : 0 ≤ v) (h9 : v ≤ 9) :
    print_preamble_level FATAL = "FATL"
    ∧ print_preamble_level ERROR = "ERR"
    ∧ print_preamble_level WARNING = "WARN"
    ∧ print_preamble_level v = "   " ++ toString v
    ∧ (print_preamble_level v).length = 4
    ∧ print_preamble_file true f = filename f
    ∧ (∀ c ∈ print_preamble_file true f, isPathSep c = false) := by
  refine ⟨by decide, by decide, by decide, ?_, ?_, rfl, ?_⟩
  · interval_cases v <;> decide
  · interval_cases v <;> decide
  · simpa [print_preamble_file] using filename_no_sep f

/-- Witness for C8 at a concrete input. -/
theorem C8_preamble_level_file_witness :
    print_preamble_level 2 = "   2" :=
  (C8_preamble_level_file 2 [] (by decide) (by decide)).2.2.2.1

/-- Claim C9.  The rendered indentation is the 4-character marker `".   "`
repeated `min depth 100` times, so it saturates at depth 100. -/
theorem C9_indentation_cap (d : Nat) :
    indentation d = (List.replicate (min d 100) (".   ".data)).flatten
    ∧ (100 ≤ d → indentation d = indentation 100) := by
  refine ⟨indentation_eq_replicate d, fun h => ?_⟩
  rw [indentation_eq_replicate d, indentation_eq_replicate 100,
    min_eq_right h, min_self]

/-- Witness for C9 at a concrete input. -/
theorem C9_indentation_cap_witness : indentation 150 = indentation 100 :=
  (C9_indentation_cap 150).2 (by decide)

/-- Claim C10.  `filename` returns the suffix after the last path
separator: the whole string when no separator occurs, the empty string when
the input ends in a separator; the result is always a suffix of the input
and contains no separator. -/
theorem C10_filename_basename (s t : List Char) (c : Char) :
    filename s = (s.reverse.takeWhile (fun a => !isPathSep a)).reverse
    ∧ (s.any isPathSep = false → filename s = s)
    ∧ (s = t ++ [c] → isPathSep c = true → filename s = [])
    ∧ List.IsSuffix (filename s) s
    ∧ (∀ a ∈ filename s, isPathSep a = false) := by
  refine ⟨filename_eq_basename s, ?_, ?_, ?_, filename_no_sep s⟩
  · intro h
    rw [filename, filenameLoop_eq s s, if_neg (by simp [h])]
  · intro hst hc
    subst hst
    rw [filename_eq_basename, List.reverse_append]
    simp [List.takeWhile_cons, hc]
  · rw [filename_eq_basename]
    have h1 : (s.reverse.takeWhile (fun a => !isPathSep a)) <+: s.reverse :=
      List.takeWhile_prefix _
    have h2 := List.reverse_suffix.mpr h1
    simpa using h2

/-- Witness for C10 at a concrete input. -/
theorem C10_filename_basename_witness : filename "abc".data = "abc".data :=
  (C10_filename_basename "abc".data [] 'x').2.1 (by decide)

end Loguru
